import Mathlib

/-!
# Verification of the patchwork factored-cognition core

A shallow embedding of the content-addressed hypertext store, the
workspace/hypertext data model, the context abstraction and parts of the
scheduler of the `patchwork` repository (packages `patchwork` and
`pure_hch`), together with proofs and refutations of the specification
claims about them.

Modelling conventions:
* Python `Address` objects (uuid-based) are modelled as natural numbers;
  fresh allocation is modelled by threading a counter that is larger than
  every address in the store (uuid uniqueness).
* Python `dict`s are modelled as association lists: lookup finds the first
  matching key, update replaces the value in place (keeping the position)
  or appends a new binding, deletion removes the binding.  `Hypertext`
  keys use `__eq__`/`__hash__` which compare `str(self)`, so dictionaries
  keyed by hypertext nodes are modelled as keyed by the rendered string.
* Python `set`s are modelled as `Finset ℕ`; the code only uses
  membership, insertion, removal and equality on them.
* Exceptions are modelled with `Except PyErr`.  State-mutating operations
  also return the state as it is at the moment an exception is raised.
* Loops whose termination depends on the store being acyclic are given a
  fuel parameter; running out of fuel is the distinguished error
  `PyErr.fuel`, which no Python code path produces or catches.
-/

namespace Patchwork

/-- Addresses (`datastore.Address`): opaque unique identifiers. -/
abbrev Addr := ℕ

/-- Errors raised by the Python code. -/
inductive PyErr where
  | keyError : PyErr
  | valueError (msg : String) : PyErr
  | attributeError (msg : String) : PyErr
  | assertionError : PyErr
  | fuel : PyErr
deriving DecidableEq, Repr

/-- A hypertext fragment (`hypertext.HypertextFragment`): an address or a
literal string. -/
inductive Frag where
  | addr (a : Addr) : Frag
  | lit (s : String) : Frag
deriving DecidableEq, Repr

/-- A subquestion entry `(question, answer_promise, final_workspace_promise)`
(`hypertext.Subquestion`). -/
abbrev Subq := Addr × Addr × Addr

/-- The fields of `hypertext.Workspace`. -/
structure WorkspaceData where
  question_link : Addr
  answer_promise : Addr
  final_workspace_promise : Addr
  scratchpad_link : Addr
  subquestions : List Subq
  predecessor_link : Option Addr
deriving DecidableEq, Repr

/-- A hypertext node (`hypertext.Hypertext`): either `RawHypertext` or
`Workspace`. -/
inductive Node where
  | raw (chunks : List Frag) : Node
  | ws (w : WorkspaceData) : Node
deriving DecidableEq, Repr

namespace DictOps

variable {K V : Type} [DecidableEq K]

/-- `d[k]` lookup in a Python dict modelled as an association list. -/
def dictLookup : List (K × V) → K → Option V
  | [], _ => none
  | (k', v) :: rest, k => if k' = k then some v else dictLookup rest k

/-- `d[k] = v`: replace in place or append. -/
def dictSet : List (K × V) → K → V → List (K × V)
  | [], k, v => [(k, v)]
  | (k', v') :: rest, k, v =>
      if k' = k then (k', v) :: rest else (k', v') :: dictSet rest k v

/-- `del d[k]`: remove the (first) binding of `k`. -/
def dictErase : List (K × V) → K → List (K × V)
  | [], _ => []
  | (k', v') :: rest, k => if k' = k then rest else (k', v') :: dictErase rest k

/-- `k in d`. -/
def dictMem (m : List (K × V)) (k : K) : Bool := (dictLookup m k).isSome

/-- `d.get(k, dflt)`. -/
def dictGetD (m : List (K × V)) (k : K) (dflt : V) : V :=
  (dictLookup m k).getD dflt

end DictOps

open DictOps

/-- `RawHypertext.links` helper: the loop over chunks with its `seen` set. -/
def rawLinksAux : List Frag → List Addr → List Addr
  | [], _ => []
  | .addr x :: rest, seen =>
      if x ∈ seen then rawLinksAux rest seen else x :: rawLinksAux rest (x :: seen)
  | .lit _ :: rest, seen => rawLinksAux rest seen

/-- `Hypertext.links` (patchwork/hypertext.py lines 53-60 and 92-100). -/
def Node.links : Node → List Addr
  | .raw chunks => rawLinksAux chunks []
  | .ws w =>
      w.predecessor_link.toList ++ [w.question_link, w.scratchpad_link] ++
        w.subquestions.flatMap (fun t => [t.1, t.2.1, t.2.2])

/-- `str(address)` = `repr(address)` = `"Address({uuid})"`. -/
def addrStr (a : Addr) : String := "Address(" ++ toString a ++ ")"

/-- Python `repr` of a subquestion tuple of three addresses. -/
def subqRepr (t : Subq) : String :=
  "(" ++ addrStr t.1 ++ ", " ++ addrStr t.2.1 ++ ", " ++ addrStr t.2.2 ++ ")"

/-- Python `str` of a list of subquestion tuples. -/
def subqListRepr (l : List Subq) : String :=
  "[" ++ String.intercalate ", " (l.map subqRepr) ++ "]"

/-- Split a character list on newlines (the computable core of
`str.split("\n")`). -/
def splitNlAux : List Char → List Char → List String
  | [], acc => [String.mk acc.reverse]
  | '\n' :: rest, acc => String.mk acc.reverse :: splitNlAux rest []
  | c :: rest, acc => splitNlAux rest (c :: acc)

/-- The lines of a string, splitting on `'\n'`. -/
def splitNl (s : String) : List String := splitNlAux s.data []

/-- `textwrap.indent(text, pre)`: prefix every line containing
non-whitespace. -/
def pyIndent (pre : String) (text : String) : String :=
  String.intercalate "\n" ((splitNl text).map fun line =>
    if line.data.any (fun c => !c.isWhitespace) then pre ++ line else line)

/-- `enumerate(l, start=i)`. -/
def enumFrom {α : Type} (i : ℕ) : List α → List (ℕ × α)
  | [] => []
  | x :: rest => (i, x) :: enumFrom (i + 1) rest

/-- `str(node)` = `node.to_str(display_map=None)`
(patchwork/hypertext.py lines 62-71 and 102-130).  This string is the
canonical content key of the store: `Hypertext.__eq__`/`__hash__` compare
`str(self)`.  Note that a workspace's own two promises do not occur in it. -/
def pyStr : Node → String
  | .raw chunks =>
      String.join (chunks.map fun c =>
        match c with
        | .lit s => s
        | .addr a => addrStr a)
  | .ws w =>
      let predPart :=
        match w.predecessor_link with
        | none => []
        | some p => ["Predecessor:", pyIndent "  " (addrStr p)]
      String.intercalate "\n" (predPart ++
        ["Question:", pyIndent "  " (addrStr w.question_link),
         "Scratchpad:", pyIndent "  " (addrStr w.scratchpad_link),
         "Subquestions:", pyIndent "  " (subqListRepr w.subquestions)])

/-- `context.Context` (patchwork/context.py): a view onto a workspace.
`display` is the canonical printed form computed at construction; `parent`
is the back-pointer to the context that produced it (absent in the
`pure_hch` variant, whose `__eq__` ignores it). -/
inductive Context where
  | mk (workspace_link : Addr) (unlocked_locations : Finset ℕ)
      (pointer_names : List (Addr × String)) (name_pointers : List (String × Addr))
      (display : String) (parent : Option Context) : Context

def Context.workspace_link : Context → Addr
  | .mk w _ _ _ _ _ => w

def Context.unlocked_locations : Context → Finset ℕ
  | .mk _ u _ _ _ _ => u

def Context.pointer_names : Context → List (Addr × String)
  | .mk _ _ p _ _ _ => p

def Context.name_pointers : Context → List (String × Addr)
  | .mk _ _ _ n _ _ => n

def Context.display : Context → String
  | .mk _ _ _ _ d _ => d

def Context.parent : Context → Option Context
  | .mk _ _ _ _ _ p => p

/-- `context.DryContext`: the minimal data needed to later materialize a
full context (registered as a promisee). -/
structure DryContext where
  workspace_link : Addr
  unlocked_locations : Finset ℕ
  parent : Option Context

/-- `datastore.Datastore` (pure_hch/datastore.py lines 30-35).
`canonical_addresses` maps content to its canonical address; since content
keys compare by `str(self)`, the map is keyed by the rendered string. -/
structure Datastore where
  content : List (Addr × Node)
  canonical_addresses : List (String × Addr)
  promises : List (Addr × List DryContext)
  aliases : List (Addr × Addr)

namespace Datastore

/-- `Datastore.canonicalize` (lines 40-46). -/
def canonicalize (d : Datastore) (address : Addr) : Except PyErr Addr :=
  match dictLookup d.aliases address with
  | some a => .ok a
  | none =>
      if dictMem d.content address || dictMem d.promises address then .ok address
      else .error .keyError

/-- `Datastore.dereference` (lines 37-38): `self.content[self.canonicalize(address)]`. -/
def dereference (d : Datastore) (address : Addr) : Except PyErr Node := do
  let ca ← d.canonicalize address
  match dictLookup d.content ca with
  | some n => pure n
  | none => throw .keyError

/-- `Datastore.make_promise` (lines 48-51).  `fresh` models the uuid
allocator: it is a number larger than every address in use. -/
def make_promise (d : Datastore) (fresh : ℕ) : Addr × Datastore × ℕ :=
  (fresh, { d with promises := dictSet d.promises fresh [] }, fresh + 1)

/-- `Datastore.register_promisee` (lines 53-54):
`self.promises[address].append(promisee)`. -/
def register_promisee (d : Datastore) (address : Addr) (promisee : DryContext) :
    Except PyErr Unit × Datastore :=
  match dictLookup d.promises address with
  | none => (.error .keyError, d)
  | some l => (.ok (), { d with promises := dictSet d.promises address (l ++ [promisee]) })

/-- `Datastore.resolve_promise` (lines 56-65). -/
def resolve_promise (d : Datastore) (address : Addr) (content : Node) :
    Except PyErr (List DryContext) × Datastore :=
  match dictLookup d.promises address with
  | none => (.error .assertionError, d)
  | some promisees =>
      let d' :=
        match dictLookup d.canonical_addresses (pyStr content) with
        | some a' => { d with aliases := dictSet d.aliases address a' }
        | none =>
            { d with content := dictSet d.content address content,
                     canonical_addresses :=
                       dictSet d.canonical_addresses (pyStr content) address }
      (.ok promisees, { d' with promises := dictErase d'.promises address })

/-- `Datastore.insert` (lines 67-73). -/
def insert (d : Datastore) (content : Node) (fresh : ℕ) :
    Except PyErr Addr × Datastore × ℕ :=
  match dictLookup d.canonical_addresses (pyStr content) with
  | some a => (.ok a, d, fresh)
  | none =>
      let (address, d1, fresh1) := d.make_promise fresh
      match d1.resolve_promise address content with
      | (.ok _, d2) => (.ok address, d2, fresh1)
      | (.error e, d2) => (.error e, d2, fresh1)

/-- `Datastore.is_fulfilled` (lines 75-77). -/
def is_fulfilled (d : Datastore) (address : Addr) : Except PyErr Bool := do
  let ca ← d.canonicalize address
  pure (dictMem d.content ca)

end Datastore

/-- `datastore.TransactionAccumulator` (pure_hch/datastore.py lines 80-100).
It subclasses `Datastore` but its `__init__` never calls
`Datastore.__init__`, so the inherited instance attributes
`canonical_addresses` and `promises` (the only inherited attributes its
methods reference) are never set; they are modelled as `Option` fields that
are `none` after construction, and reading them raises `AttributeError`. -/
structure TransactionAccumulator where
  db : Datastore
  new_promises : List (Addr × List DryContext)
  resolved_promises : Finset ℕ
  additional_promisees : List (Addr × List DryContext)
  new_content : List (Addr × Node)
  new_canonical_addresses : List (String × Addr)
  new_aliases : List (Addr × Addr)
  canonical_addresses : Option (List (String × Addr))
  promises : Option (List (Addr × List DryContext))

namespace TransactionAccumulator

/-- `TransactionAccumulator.__init__` (lines 82-100). -/
def init (db : Datastore) : TransactionAccumulator :=
  { db := db, new_promises := [], resolved_promises := ∅,
    additional_promisees := [], new_content := [],
    new_canonical_addresses := [], new_aliases := [],
    canonical_addresses := none, promises := none }

/-- `TransactionAccumulator.canonicalize` (lines 109-119). -/
def canonicalize (t : TransactionAccumulator) (address : Addr) : Except PyErr Addr :=
  match dictLookup t.new_aliases address with
  | some a => .ok a
  | none =>
      match dictLookup t.db.aliases address with
      | some a => .ok a
      | none =>
          if dictMem t.new_content address || dictMem t.new_promises address then
            .ok address
          else if dictMem t.db.content address || dictMem t.db.promises address then
            .ok address
          else .error .keyError

/-- `TransactionAccumulator.dereference` (lines 102-107). -/
def dereference (t : TransactionAccumulator) (address : Addr) : Except PyErr Node := do
  let ca ← t.canonicalize address
  match dictLookup t.new_content ca with
  | some n => pure n
  | none =>
      match dictLookup t.db.content ca with
      | some n => pure n
      | none => throw .keyError

/-- `TransactionAccumulator.make_promise` (lines 121-124). -/
def make_promise (t : TransactionAccumulator) (fresh : ℕ) :
    Addr × TransactionAccumulator × ℕ :=
  (fresh, { t with new_promises := dictSet t.new_promises fresh [] }, fresh + 1)

/-- `TransactionAccumulator.register_promisee` (lines 126-136). -/
def register_promisee (t : TransactionAccumulator) (address : Addr)
    (promisee : DryContext) : Except PyErr Unit × TransactionAccumulator :=
  if address ∈ t.resolved_promises then
    (.error (.valueError "Promise already resolved"), t)
  else match dictLookup t.new_promises address with
  | some l =>
      (.ok (), { t with new_promises := dictSet t.new_promises address (l ++ [promisee]) })
  | none =>
      match dictLookup t.additional_promisees address with
      | some l =>
          (.ok (), { t with additional_promisees :=
                        dictSet t.additional_promisees address (l ++ [promisee]) })
      | none =>
          if dictMem t.db.promises address then
            (.ok (), { t with additional_promisees :=
                          dictSet t.additional_promisees address [promisee] })
          else (.error (.valueError "address not a promise"), t)

/-- `TransactionAccumulator.resolve_promise` (lines 138-155).  Note line
149-150: for a promise pending in the base store, the promisees list is
read out of `self.db.promises` and extended **in place** with the
transaction's additional promisees, which mutates the base store before
commit. -/
def resolve_promise (t : TransactionAccumulator) (address : Addr) (content : Node) :
    Except PyErr (List DryContext) × TransactionAccumulator :=
  if ¬ (dictMem t.new_promises address || dictMem t.db.promises address) then
    (.error .assertionError, t)
  else
    let t1 :=
      match dictLookup t.db.canonical_addresses (pyStr content) with
      | some a' => { t with new_aliases := dictSet t.new_aliases address a' }
      | none =>
          match dictLookup t.new_canonical_addresses (pyStr content) with
          | some a' => { t with new_aliases := dictSet t.new_aliases address a' }
          | none =>
              { t with new_content := dictSet t.new_content address content,
                       new_canonical_addresses :=
                         dictSet t.new_canonical_addresses (pyStr content) address }
    match dictLookup t1.db.promises address with
    | some basePromisees =>
        -- promisees = self.db.promises[address]; promisees.extend(...):
        -- the base store's list object is extended in place.
        let promisees := basePromisees ++ dictGetD t1.additional_promisees address []
        (.ok promisees,
          { t1 with db := { t1.db with promises := dictSet t1.db.promises address promisees },
                    resolved_promises := insert address t1.resolved_promises })
    | none =>
        let promisees := dictGetD t1.new_promises address []
        -- `del self.promises[address]`: `self.promises` was never initialized.
        match t1.promises with
        | none => (.error (.attributeError "promises"), t1)
        | some m => (.ok promisees,
            { t1 with promises := some (dictErase m address) })

/-- `TransactionAccumulator.insert` (lines 157-165).  The first statement
reads `self.canonical_addresses`, an attribute `__init__` never set. -/
def insert (t : TransactionAccumulator) (content : Node) (fresh : ℕ) :
    Except PyErr Addr × TransactionAccumulator × ℕ :=
  match t.canonical_addresses with
  | none => (.error (.attributeError "canonical_addresses"), t, fresh)
  | some ca =>
      match dictLookup ca (pyStr content) with
      | some a => (.ok a, t, fresh)
      | none =>
          match dictLookup t.db.canonical_addresses (pyStr content) with
          | some a => (.ok a, t, fresh)
          | none =>
              let (address, t1, fresh1) := t.make_promise fresh
              match t1.resolve_promise address content with
              | (.ok _, t2) => (.ok address, t2, fresh1)
              | (.error e, t2) => (.error e, t2, fresh1)

/-- `TransactionAccumulator.is_fulfilled` (lines 167-169). -/
def is_fulfilled (t : TransactionAccumulator) (address : Addr) : Except PyErr Bool := do
  let ca ← t.canonicalize address
  pure (dictMem t.new_content ca || dictMem t.db.content ca)

/-- `TransactionAccumulator.commit` (lines 171-179).  Deleting the
resolved promises is order-independent, so the set iteration is modelled
as a filter; `self.db.promises[a].extend(l)` raises `KeyError` when `a`
is absent. -/
def commit (t : TransactionAccumulator) : Except PyErr Unit × Datastore :=
  let proms0 := t.new_promises.foldl (fun m kv => dictSet m kv.1 kv.2) t.db.promises
  let db1 := { t.db with promises := proms0 }
  match t.additional_promisees.foldlM
      (fun (m : List (Addr × List DryContext)) kv =>
        match dictLookup m kv.1 with
        | none => Except.error PyErr.keyError
        | some l => Except.ok (dictSet m kv.1 (l ++ kv.2))) db1.promises with
  | .error e => (.error e, db1)
  | .ok proms =>
      let db2 := { db1 with
        promises := proms,
        content := t.new_content.foldl (fun m kv => dictSet m kv.1 kv.2) t.db.content,
        canonical_addresses :=
          t.new_canonical_addresses.foldl (fun m kv => dictSet m kv.1 kv.2)
            t.db.canonical_addresses,
        aliases := t.new_aliases.foldl (fun m kv => dictSet m kv.1 kv.2) t.db.aliases }
      if ∀ a ∈ t.resolved_promises, dictMem db2.promises a then
        (.ok (), { db2 with promises :=
          db2.promises.filter (fun kv => kv.1 ∉ t.resolved_promises) })
      else (.error .keyError, db2)

end TransactionAccumulator

/-! ## Claims C1 and C3: the transactional overlay -/

/-- A base store holding a single pending promise at address `0` with no
promisees yet. -/
def dbC1 : Datastore :=
  { content := [], canonical_addresses := [], promises := [(0, [])], aliases := [] }

/-- A concrete promisee (dry context) registered during the transaction. -/
def dryC1 : DryContext := { workspace_link := 5, unlocked_locations := ∅, parent := none }

/-- The transaction after `register_promisee(0, dryC1)` on a fresh overlay
over `dbC1`. -/
def txC1 : TransactionAccumulator :=
  (TransactionAccumulator.register_promisee (TransactionAccumulator.init dbC1) 0 dryC1).2

/-- The result of then calling `resolve_promise(0, RawHypertext(["c"]))`. -/
def resC1 : Except PyErr (List DryContext) × TransactionAccumulator :=
  txC1.resolve_promise 0 (.raw [.lit "c"])

/-- **C1.**  The claim states that executing store operations against a
transactional overlay never mutates the base store before commit, so a
discarded transaction leaves the base — in particular the promisees list of
a still-pending base promise — identical to its prior state.  The code
violates this: `TransactionAccumulator.resolve_promise` extends the base
store's promisees list in place (datastore.py lines 149-150).  After
`register_promisee(0, d)` and `resolve_promise(0, c)` on an overlay over a
base with pending promise `0`, the base's promisees list for `0` has become
`[d]` even though the transaction was never committed, so the base differs
from its pre-transaction state. -/
theorem claim_C1_overlay_mutates_base_promisees :
    (TransactionAccumulator.register_promisee (TransactionAccumulator.init dbC1) 0 dryC1).1
        = .ok ()
    ∧ resC1.1 = .ok [dryC1]
    ∧ resC1.2.db.promises = [(0, [dryC1])]
    ∧ dbC1.promises = [(0, [])]
    ∧ resC1.2.db ≠ dbC1 := by
  refine ⟨rfl, rfl, rfl, rfl, ?_⟩
  intro h
  have h2 : resC1.2.db.promises = dbC1.promises := congrArg Datastore.promises h
  rw [show resC1.2.db.promises = [(0, [dryC1])] from rfl] at h2
  simp [dbC1] at h2

/-- **C3.**  The claim states that `insert(content)` on a transactional
overlay allocates, stores and returns a new address without raising (when
the content is not yet canonical).  In the code `TransactionAccumulator`
never initializes the inherited attribute `canonical_addresses` (its
`__init__` does not call `Datastore.__init__`), and `insert`'s first
statement reads `self.canonical_addresses`, so every call to `insert` on a
fresh overlay raises `AttributeError` instead: the overlay state and the
allocator are left untouched and no address is returned. -/
theorem claim_C3_overlay_insert_raises_attribute_error
    (db : Datastore) (content : Node) (fresh : ℕ) :
    TransactionAccumulator.insert (TransactionAccumulator.init db) content fresh
      = (.error (.attributeError "canonical_addresses"),
         TransactionAccumulator.init db, fresh) := rfl

/-! ## Dictionary lemmas -/

namespace DictOps

variable {K V : Type} [DecidableEq K]

theorem dictLookup_dictSet_self (m : List (K × V)) (k : K) (v : V) :
    dictLookup (dictSet m k v) k = some v := by
  induction m with
  | nil => simp [dictSet, dictLookup]
  | cons kv rest ih =>
      by_cases h : kv.1 = k
      · simp [dictSet, dictLookup, h]
      · simp [dictSet, dictLookup, h, ih]

theorem dictLookup_dictSet_ne (m : List (K × V)) (k k' : K) (v : V) (h : k' ≠ k) :
    dictLookup (dictSet m k v) k' = dictLookup m k' := by
  induction m with
  | nil =>
      simp only [dictSet, dictLookup]
      rw [if_neg (fun he => h he.symm)]
  | cons kv rest ih =>
      obtain ⟨a, b⟩ := kv
      simp only [dictSet]
      by_cases ha : a = k
      · have hak' : ¬ a = k' := fun he => h (he.symm.trans ha)
        rw [if_pos ha]
        simp only [dictLookup]
        rw [if_neg hak', if_neg hak']
      · rw [if_neg ha]
        simp only [dictLookup]
        rw [ih]

theorem dictLookup_dictErase_ne (m : List (K × V)) (k k' : K) (h : k' ≠ k) :
    dictLookup (dictErase m k) k' = dictLookup m k' := by
  induction m with
  | nil => simp [dictErase, dictLookup]
  | cons kv rest ih =>
      obtain ⟨a, b⟩ := kv
      simp only [dictErase]
      by_cases ha : a = k
      · have hak' : ¬ a = k' := fun he => h (he.symm.trans ha)
        rw [if_pos ha]
        conv_rhs => simp only [dictLookup]
        rw [if_neg hak']
      · rw [if_neg ha]
        simp only [dictLookup]
        rw [ih]

theorem dictLookup_eq_none_of_not_mem (m : List (K × V)) (k : K)
    (h : k ∉ m.map Prod.fst) : dictLookup m k = none := by
  induction m with
  | nil => simp [dictLookup]
  | cons kv rest ih =>
      simp only [List.map_cons, List.mem_cons] at h
      push_neg at h
      have hne : ¬ kv.1 = k := fun he => h.1 he.symm
      simp [dictLookup, hne, ih h.2]

theorem dictLookup_dictErase_self (m : List (K × V)) (k : K)
    (h : (m.map Prod.fst).Nodup) : dictLookup (dictErase m k) k = none := by
  induction m with
  | nil => simp [dictErase, dictLookup]
  | cons kv rest ih =>
      simp only [List.map_cons, List.nodup_cons] at h
      by_cases hk : kv.1 = k
      · subst hk
        simpa [dictErase] using dictLookup_eq_none_of_not_mem rest kv.1 h.1
      · simp [dictErase, dictLookup, hk, ih h.2]

end DictOps

/-! ## Claim C7: resolving a promise in the base store -/

/-- Store well-formedness: the invariants maintained by the `Datastore`
operations, assumed for the statements about `resolve_promise`.
`canonical_addresses` points into `content`; content-bearing addresses are
never pending and never aliases; pending addresses are not aliases; the
promises dictionary has no duplicate keys. -/
structure DatastoreWF (d : Datastore) : Prop where
  canon_content : ∀ s a, dictLookup d.canonical_addresses s = some a →
    ∃ n, dictLookup d.content a = some n
  content_promises : ∀ a, (dictLookup d.content a).isSome →
    dictLookup d.promises a = none
  content_aliases : ∀ a, (dictLookup d.content a).isSome →
    dictLookup d.aliases a = none
  promises_aliases : ∀ a, (dictLookup d.promises a).isSome →
    dictLookup d.aliases a = none
  promises_nodup : (d.promises.map Prod.fst).Nodup

/-- **C7.**  For a pending promise `A`: if the content is already canonical
under `A'`, `resolve_promise(A, content)` records the alias `A → A'`,
stores nothing under `A`, and afterwards `dereference(A) = dereference(A')`;
otherwise it stores the content under `A` and records `content → A` as
canonical.  In both cases it returns the promisees registered on `A`, and
`A` is no longer pending. -/
theorem claim_C7_resolve_promise_alias_or_store
    (d : Datastore) (A : Addr) (c : Node) (ps : List DryContext)
    (hwf : DatastoreWF d) (hp : dictLookup d.promises A = some ps) :
    (d.resolve_promise A c).1 = .ok ps
    ∧ dictLookup (d.resolve_promise A c).2.promises A = none
    ∧ (∀ A', dictLookup d.canonical_addresses (pyStr c) = some A' →
        dictLookup (d.resolve_promise A c).2.aliases A = some A'
        ∧ (d.resolve_promise A c).2.content = d.content
        ∧ dictLookup (d.resolve_promise A c).2.content A = none
        ∧ (d.resolve_promise A c).2.dereference A = (d.resolve_promise A c).2.dereference A')
    ∧ (dictLookup d.canonical_addresses (pyStr c) = none →
        dictLookup (d.resolve_promise A c).2.content A = some c
        ∧ dictLookup (d.resolve_promise A c).2.canonical_addresses (pyStr c) = some A) := by
  have hcontA : dictLookup d.content A = none := by
    by_contra hne
    have : (dictLookup d.content A).isSome := by
      cases h : dictLookup d.content A with
      | none => exact absurd h hne
      | some _ => simp
    rw [hwf.content_promises A this] at hp
    exact Option.noConfusion hp
  refine ⟨?_, ?_, ?_, ?_⟩
  · cases hc : dictLookup d.canonical_addresses (pyStr c) <;>
      simp [Datastore.resolve_promise, hp, hc]
  · cases hc : dictLookup d.canonical_addresses (pyStr c) <;>
      simp [Datastore.resolve_promise, hp, hc,
        dictLookup_dictErase_self _ _ hwf.promises_nodup]
  · intro A' hc
    have ⟨n, hn⟩ := hwf.canon_content (pyStr c) A' hc
    have hAA' : A' ≠ A := fun h => by rw [h, hcontA] at hn; exact Option.noConfusion hn
    have hres : (d.resolve_promise A c).2 =
        { d with aliases := dictSet d.aliases A A',
                 promises := dictErase d.promises A } := by
      simp [Datastore.resolve_promise, hp, hc]
    refine ⟨?_, ?_, ?_, ?_⟩
    · rw [hres]; exact dictLookup_dictSet_self _ _ _
    · rw [hres]
    · rw [hres]; exact hcontA
    · have hcanonA : (d.resolve_promise A c).2.canonicalize A = .ok A' := by
        rw [hres]
        simp [Datastore.canonicalize, dictLookup_dictSet_self]
      have haliasA' : dictLookup (dictSet d.aliases A A') A' = none := by
        rw [dictLookup_dictSet_ne _ _ _ _ hAA']
        exact hwf.content_aliases A' (by rw [hn]; simp)
      have hcanonA' : (d.resolve_promise A c).2.canonicalize A' = .ok A' := by
        rw [hres]
        simp [Datastore.canonicalize, haliasA', dictMem, hn]
      rw [Datastore.dereference, Datastore.dereference, hcanonA, hcanonA', hres]
  · intro hc
    have hres : (d.resolve_promise A c).2 =
        { d with content := dictSet d.content A c,
                 canonical_addresses := dictSet d.canonical_addresses (pyStr c) A,
                 promises := dictErase d.promises A } := by
      simp [Datastore.resolve_promise, hp, hc]
    constructor
    · rw [hres]; exact dictLookup_dictSet_self _ _ _
    · rw [hres]; exact dictLookup_dictSet_self _ _ _

/-- A concrete well-formed store: content `"x"` stored at address `1` and
canonical there, a pending promise at address `0`. -/
def dbC7 : Datastore :=
  { content := [(1, .raw [.lit "x"])], canonical_addresses := [("x", 1)],
    promises := [(0, [])], aliases := [] }

/-- Witness for C7: resolving the pending promise `0` of `dbC7` with
content that is already canonical under address `1`. -/
theorem claim_C7_witness :
    (dbC7.resolve_promise 0 (.raw [.lit "x"])).1 = .ok []
    ∧ dictLookup (dbC7.resolve_promise 0 (.raw [.lit "x"])).2.promises 0 = none
    ∧ dictLookup (dbC7.resolve_promise 0 (.raw [.lit "x"])).2.aliases 0 = some 1
    ∧ (dbC7.resolve_promise 0 (.raw [.lit "x"])).2.dereference 0 =
        (dbC7.resolve_promise 0 (.raw [.lit "x"])).2.dereference 1 := by
  have hwf : DatastoreWF dbC7 := by
    refine ⟨?_, ?_, ?_, ?_, ?_⟩
    · intro s a h
      simp only [dbC7, dictLookup] at h
      split at h
      · cases h
        exact ⟨.raw [.lit "x"], rfl⟩
      · exact Option.noConfusion h
    · intro a h
      simp only [dbC7, dictLookup] at h ⊢
      by_cases h1 : (1 : ℕ) = a
      · subst h1
        norm_num
      · rw [if_neg h1] at h
        simp at h
    · intro a _
      rfl
    · intro a _
      rfl
    · simp [dbC7]
  have hp : dictLookup dbC7.promises 0 = some [] := rfl
  obtain ⟨h1, h2, h3, -⟩ :=
    claim_C7_resolve_promise_alias_or_store dbC7 0 (.raw [.lit "x"]) [] hwf hp
  have h3' := h3 1 rfl
  exact ⟨h1, h2, h3'.1, h3'.2.2.2⟩

/-! ## Claim C5: `links()` of raw nodes and workspaces -/

/-- The referenced addresses of a chunk list, in order, with duplicates. -/
def addrChunks (chunks : List Frag) : List Addr :=
  chunks.filterMap fun c =>
    match c with
    | .addr a => some a
    | .lit _ => none

/-- Specification-side deduplication keeping the first occurrence of each
element ("the deduplicated sequence of referenced addresses in
first-occurrence order"). -/
def firstOccurDedup : List Addr → List Addr
  | [] => []
  | x :: rest => x :: firstOccurDedup (rest.filter (fun y => y ≠ x))
  termination_by l => l.length
  decreasing_by
    simp only [List.length_cons]
    exact Nat.lt_succ_of_le (List.length_filter_le _ _)

theorem filter_notMem_cons (l : List Addr) (x : Addr) (seen : List Addr) :
    l.filter (fun y => y ∉ (x :: seen : List Addr)) =
      (l.filter (fun y => y ∉ seen)).filter (fun y => y ≠ x) := by
  induction l with
  | nil => simp
  | cons a l ih =>
      by_cases hax : a = x
      · subst hax
        simp [ih]
      · by_cases has : a ∈ seen
        · simp [has, hax, ih]
        · simp [has, hax, ih]

theorem rawLinksAux_eq_firstOccurDedup (chunks : List Frag) (seen : List Addr) :
    rawLinksAux chunks seen =
      firstOccurDedup ((addrChunks chunks).filter (fun y => y ∉ seen)) := by
  induction chunks generalizing seen with
  | nil => simp [rawLinksAux, addrChunks, firstOccurDedup]
  | cons c rest ih =>
      cases c with
      | lit s => simpa [rawLinksAux, addrChunks] using ih seen
      | addr x =>
          by_cases hx : x ∈ seen
          · simpa [rawLinksAux, addrChunks, hx] using ih seen
          · have h1 : rawLinksAux (.addr x :: rest) seen = x :: rawLinksAux rest (x :: seen) := by
              simp [rawLinksAux, hx]
            have h2 : addrChunks (.addr x :: rest) = x :: addrChunks rest := by
              simp [addrChunks]
            rw [h1, h2, ih (x :: seen)]
            have h3 : ((x :: addrChunks rest : List Addr)).filter (fun y => y ∉ seen)
                = x :: (addrChunks rest).filter (fun y => y ∉ seen) := by
              simp [hx]
            rw [h3, firstOccurDedup, filter_notMem_cons]

/-- **C5.**  `links()` of a raw node is the deduplicated sequence of its
referenced addresses in first-occurrence order; `links()` of a workspace is
the optional predecessor, the question, the scratchpad, then the three
addresses of each subquestion in order; and — given the invariant that the
workspace's own `answer_promise`/`final_workspace_promise` are distinct
from all listed addresses — the workspace's own promises never occur in
`links()`. -/
theorem claim_C5_links_order
    (chunks : List Frag) (w : WorkspaceData) (p : Addr)
    (hq : p ≠ w.question_link) (hs : p ≠ w.scratchpad_link)
    (hpred : ∀ x, w.predecessor_link = some x → p ≠ x)
    (hsub : ∀ t ∈ w.subquestions, p ≠ t.1 ∧ p ≠ t.2.1 ∧ p ≠ t.2.2) :
    Node.links (.raw chunks) = firstOccurDedup (addrChunks chunks)
    ∧ Node.links (.ws w) =
        w.predecessor_link.toList ++ [w.question_link, w.scratchpad_link] ++
          w.subquestions.flatMap (fun t => [t.1, t.2.1, t.2.2])
    ∧ p ∉ Node.links (.ws w) := by
  refine ⟨?_, rfl, ?_⟩
  · have h := rawLinksAux_eq_firstOccurDedup chunks []
    simpa [Node.links] using h
  · intro hmem
    simp only [Node.links, List.mem_append, List.mem_flatMap] at hmem
    rcases hmem with (h | h) | ⟨t, ht, hmem⟩
    · cases hpl : w.predecessor_link with
      | none => rw [hpl] at h; simp at h
      | some x =>
          rw [hpl] at h
          simp only [Option.toList_some, List.mem_singleton] at h
          exact hpred x hpl h
    · simp only [List.mem_cons, List.mem_singleton] at h
      rcases h with h | h | h
      · exact hq h
      · exact hs h
      · simp at h
    · have := hsub t ht
      simp only [List.mem_cons, List.mem_singleton] at hmem
      rcases hmem with h | h | h | h
      · exact this.1 h
      · exact this.2.1 h
      · exact this.2.2 h
      · simp at h

/-- Concrete workspace for the C5 witness: question `1`, answer promise
`10`, final-workspace promise `11`, scratchpad `2`, one subquestion
`(3, 4, 5)`, no predecessor. -/
def wC5 : WorkspaceData :=
  { question_link := 1, answer_promise := 10, final_workspace_promise := 11,
    scratchpad_link := 2, subquestions := [(3, 4, 5)], predecessor_link := none }

/-- Witness for C5 at a concrete raw node and workspace. -/
theorem claim_C5_witness :
    Node.links (.raw [.addr 1, .lit "a", .addr 2, .addr 1]) =
      firstOccurDedup (addrChunks [.addr 1, .lit "a", .addr 2, .addr 1])
    ∧ Node.links (.ws wC5) = [1, 2, 3, 4, 5]
    ∧ (10 : Addr) ∉ Node.links (.ws wC5) := by
  have h := claim_C5_links_order [.addr 1, .lit "a", .addr 2, .addr 1] wC5 10
    (by decide) (by decide) (by intro x hx; simp [wC5] at hx) (by decide)
  exact ⟨h.1, by decide, h.2.2⟩

/-! ## The context machinery: unlocked-region walk, naming, rendering -/

/-- Loop body of `visit_unlocked_region` (patchwork/hypertext.py lines
10-27): breadth-first lockstep walk over `(template, target)` pairs,
yielding target addresses of pairs whose template side is unlocked. -/
def visitAux (db : Datastore) (unlocked : Option (Finset ℕ)) :
    ℕ → List (Addr × Addr) → List (Addr × Addr) → Except PyErr (List Addr)
  | 0, _, _ => .error .fuel
  | _ + 1, [], _ => .ok []
  | fuel + 1, (my, your) :: rest, seen =>
      if (match unlocked with | none => true | some u => decide (my ∈ u) : Bool) then do
        let myPage ← db.dereference my
        let yourPage ← db.dereference your
        let next := (myPage.links.zip yourPage.links).foldl
          (fun (p : List (Addr × Addr) × List (Addr × Addr)) nl =>
            if nl ∈ p.2 then p else (p.1 ++ [nl], p.2 ++ [nl])) (rest, seen)
        let tail ← visitAux db unlocked fuel next.1 next.2
        pure (your :: tail)
      else visitAux db unlocked fuel rest seen

/-- `visit_unlocked_region(template_link, workspace_link, db, unlocked)`. -/
def visit_unlocked_region (template_link workspace_link : Addr) (db : Datastore)
    (unlocked : Option (Finset ℕ)) (fuel : ℕ) : Except PyErr (List Addr) :=
  visitAux db unlocked fuel [(template_link, workspace_link)]
    [(template_link, workspace_link)]

/-- `Context._name_pointers` (patchwork/context.py lines 52-79): `$qi/$ai/$wi`
names for subquestions (in reverse index order), then `$k` names for newly
seen addresses along the unlocked-region walk. -/
def namePointers (selfWs : Addr) (selfUnlocked : Finset ℕ) (workspace_link : Addr)
    (db : Datastore) (fuel : ℕ) :
    Except PyErr (List (Addr × String) × List (String × Addr)) := do
  let root ← db.dereference workspace_link
  match root with
  | .raw _ => throw (.attributeError "subquestions")
  | .ws w =>
      let init := ((enumFrom 1 w.subquestions).reverse).foldl
        (fun (pb : List (Addr × String) × List (String × Addr)) it =>
          let i := it.1
          let t := it.2
          let p1 := dictSet pb.1 t.1 ("$q" ++ toString i)
          let b1 := dictSet pb.2 ("$q" ++ toString i) t.1
          let p2 := dictSet p1 t.2.1 ("$a" ++ toString i)
          let b2 := dictSet b1 ("$a" ++ toString i) t.2.1
          let p3 := dictSet p2 t.2.2 ("$w" ++ toString i)
          let b3 := dictSet b2 ("$w" ++ toString i) t.2.2
          (p3, b3)) ([], [])
      let visited ← visit_unlocked_region selfWs workspace_link db (some selfUnlocked) fuel
      let res ← visited.foldlM
        (fun (st : List (Addr × String) × List (String × Addr) × ℕ) your => do
          let page ← db.dereference your
          pure (page.links.foldl
            (fun (st2 : List (Addr × String) × List (String × Addr) × ℕ) vl =>
              if (dictLookup st2.1 vl).isSome then st2
              else
                let c := st2.2.2 + 1
                (dictSet st2.1 vl ("$" ++ toString c),
                 dictSet st2.2.1 ("$" ++ toString c) vl, c)) st))
        (init.1, init.2, 0)
      pure (res.1, res.2.1)

/-- `Hypertext.to_str(display_map)` with a display map
(patchwork/hypertext.py lines 62-71 and 102-130); missing map entries
raise `KeyError`. -/
def Node.to_str_map : Node → List (Addr × String) → Except PyErr String
  | .raw chunks, m =>
      chunks.foldlM
        (fun acc c =>
          match c with
          | .lit s => pure (acc ++ s)
          | .addr a =>
              match dictLookup m a with
              | some s => pure (acc ++ s)
              | none => throw PyErr.keyError) ""
  | .ws w, m => do
      let predPart ←
        match w.predecessor_link with
        | none => pure ([] : List String)
        | some p =>
            match dictLookup m p with
            | some s => pure ["Predecessor:", pyIndent "  " s]
            | none => throw PyErr.keyError
      let question ←
        match dictLookup m w.question_link with
        | some s => pure s
        | none => throw PyErr.keyError
      let scratchpad ←
        match dictLookup m w.scratchpad_link with
        | some s => pure s
        | none => throw PyErr.keyError
      let subqStrs ← (enumFrom 1 w.subquestions).mapM (fun it => do
        let qs ←
          match dictLookup m it.2.1 with
          | some s => pure s
          | none => throw PyErr.keyError
        let ans ←
          match dictLookup m it.2.2.1 with
          | some s => pure s
          | none => throw PyErr.keyError
        let wss ←
          match dictLookup m it.2.2.2 with
          | some s => pure s
          | none => throw PyErr.keyError
        pure (toString it.1 ++ ".\n" ++ pyIndent "  " qs ++ ",\n"
          ++ pyIndent "  " ans ++ ",\n" ++ pyIndent "  " wss))
      pure (String.intercalate "\n" (predPart ++
        ["Question:", pyIndent "  " question,
         "Scratchpad:", pyIndent "  " scratchpad,
         "Subquestions:", pyIndent "  " (String.intercalate "\n" subqStrs)]))

/-- The Kahn loop of `make_link_texts` (pure_hch/text_manipulation.py lines
94-104): pop addresses with no remaining incoming edges, in order. -/
def kahnLoop (db : Datastore) (unlocked : Option (Finset ℕ)) :
    ℕ → List Addr → List (Addr × Int) → List Addr → Except PyErr (List Addr)
  | 0, _, _, _ => .error .fuel
  | _ + 1, [], _, order => .ok order
  | fuel + 1, link :: rest, counts, order =>
      let order' := order ++ [link]
      if (match unlocked with | none => true | some u => decide (link ∈ u) : Bool) then do
        let page ← db.dereference link
        let st := page.links.foldl
          (fun (p : List (Addr × Int) × List Addr) out =>
            let v := dictGetD p.1 out 0 - 1
            (dictSet p.1 out v, if v = 0 then p.2 ++ [out] else p.2)) (counts, [])
        kahnLoop db unlocked fuel (rest ++ st.2) st.1 order'
      else kahnLoop db unlocked fuel rest counts order'

/-- `text_manipulation.make_link_texts` (pure_hch/text_manipulation.py lines
74-126): render each address of the unlocked region, in reverse topological
order, as `[name: content]` (unlocked), as its pointer name (locked), or as
`[content]` when no pointer names are given. -/
def make_link_texts (root_link : Addr) (db : Datastore)
    (unlocked : Option (Finset ℕ)) (pointer_names : Option (List (Addr × String)))
    (fuel : ℕ) : Except PyErr (List (Addr × String)) := do
  let visited ← visit_unlocked_region root_link root_link db unlocked fuel
  let counts ← visited.foldlM
    (fun (m : List (Addr × Int)) l => do
      let page ← db.dereference l
      pure (page.links.foldl (fun m2 x => dictSet m2 x (dictGetD m2 x 0 + 1)) m)) []
  if dictGetD counts root_link 0 ≠ 0 then throw PyErr.assertionError
  else do
    let order ← kahnLoop db unlocked fuel [root_link] counts []
    match pointer_names with
    | some pn =>
        order.reverse.foldlM
          (fun (texts : List (Addr × String)) link =>
            if link = root_link then pure texts
            else if (match unlocked with
                     | none => false
                     | some u => decide (link ∉ u) : Bool) then
              match dictLookup pn link with
              | some s => pure (dictSet texts link s)
              | none => throw PyErr.keyError
            else do
              let page ← db.dereference link
              let name ←
                match dictLookup pn link with
                | some s => pure s
                | none => throw PyErr.keyError
              let content ← page.to_str_map texts
              pure (dictSet texts link ("[" ++ name ++ ": " ++ content ++ "]"))) []
    | none =>
        order.reverse.foldlM
          (fun (texts : List (Addr × String)) link => do
            let page ← db.dereference link
            let content ← page.to_str_map texts
            pure (dictSet texts link ("[" ++ content ++ "]"))) []

/-- `Context.to_str` (patchwork/context.py lines 96-120). -/
def ctxToStr (workspace_link : Addr) (unlocked : Finset ℕ)
    (pointer_names : List (Addr × String)) (db : Datastore) (fuel : ℕ) :
    Except PyErr String := do
  let link_texts ← make_link_texts workspace_link db (some unlocked) (some pointer_names) fuel
  let wsNode ← db.dereference workspace_link
  match wsNode with
  | .raw _ => throw (PyErr.attributeError "subquestions")
  | .ws w =>
      let subqStrs ← (enumFrom 1 w.subquestions).mapM (fun it => do
        let qt ←
          match dictLookup link_texts it.2.1 with
          | some s => pure s
          | none => throw PyErr.keyError
        let att ←
          match dictLookup link_texts it.2.2.1 with
          | some s => pure s
          | none => throw PyErr.keyError
        let wt ←
          match dictLookup link_texts it.2.2.2 with
          | some s => pure s
          | none => throw PyErr.keyError
        pure (toString it.1 ++ ".\n" ++ pyIndent "  " qt ++ "\n"
          ++ pyIndent "  " att ++ "\n" ++ pyIndent "  " wt))
      let subquestions := String.intercalate "\n" subqStrs
      let predecessor ←
        match w.predecessor_link with
        | none => pure ""
        | some p =>
            match dictLookup link_texts p with
            | some s => pure ("Predecessor: " ++ s ++ "\n")
            | none => throw PyErr.keyError
      let question ←
        match dictLookup link_texts w.question_link with
        | some s => pure s
        | none => throw PyErr.keyError
      let scratchpad ←
        match dictLookup link_texts w.scratchpad_link with
        | some s => pure s
        | none => throw PyErr.keyError
      pure (predecessor ++ "Question: " ++ question ++ "\nScratchpad: " ++ scratchpad
        ++ "\nSubquestions:\n" ++ subquestions ++ "\n")

/-- The default unlocked set (patchwork/context.py lines 42-46): the
workspace, its question, its scratchpad, each subquestion's question, and
the predecessor if any. -/
def defaultUnlocked (workspace_link : Addr) (w : WorkspaceData) : Finset ℕ :=
  ([workspace_link, w.question_link, w.scratchpad_link]
    ++ w.subquestions.map (fun t => t.1)
    ++ w.predecessor_link.toList).toFinset

/-- `Context.__init__` (patchwork/context.py lines 26-50).  When an
explicit unlocked set is passed, the workspace link is added to it (the
Python code mutates the caller's set object; the value of that shared set
after construction is the context's `unlocked_locations`). -/
def mkContext (workspace_link : Addr) (db : Datastore)
    (unlocked_locations : Option (Finset ℕ)) (parent : Option Context)
    (fuel : ℕ) : Except PyErr Context := do
  let workspace ← db.dereference workspace_link
  let unlocked ←
    match unlocked_locations with
    | some s => pure (insert workspace_link s)
    | none =>
        match workspace with
        | .ws w => pure (defaultUnlocked workspace_link w)
        | .raw _ => throw (PyErr.attributeError "question_link")
  let names ← namePointers workspace_link unlocked workspace_link db fuel
  let display ← ctxToStr workspace_link unlocked names.1 db fuel
  pure (.mk workspace_link unlocked names.1 names.2 display parent)

/-- `Context.__eq__` of patchwork/context.py (lines 153-158): structural
comparison of workspace link, unlocked set and parent chain. -/
def patchworkEq : Context → Context → Bool
  | .mk w1 u1 _ _ _ p1, .mk w2 u2 _ _ _ p2 =>
      decide (w1 = w2) && decide (u1 = u2) &&
        (match p1, p2 with
         | none, none => true
         | some a, some b => patchworkEq a b
         | _, _ => false)

/-- `Context.__eq__` of pure_hch/context.py (lines 166-169): compare the
canonical printed forms (`str(other) == str(self)`). -/
def pureHchEq (c1 c2 : Context) : Bool := decide (c1.display = c2.display)

/-- `Context.__hash__` (both versions): `hash(str(self))`, a pure function
of the display string. -/
def ctxHash (c : Context) : UInt64 := c.display.hash

/-- Inversion of a successful context construction: the resulting context
keeps the given workspace link and parent, and its unlocked set is the
explicitly passed set with the workspace link added, or the default
unlocked set of the dereferenced workspace. -/
theorem mkContext_ok_inversion (ws : Addr) (db : Datastore)
    (uopt : Option (Finset ℕ)) (parent : Option Context) (fuel : ℕ) (ctx : Context)
    (h : mkContext ws db uopt parent fuel = .ok ctx) :
    ∃ unlocked pn np d, ctx = .mk ws unlocked pn np d parent ∧
      ((∃ s, uopt = some s ∧ unlocked = insert ws s) ∨
       (∃ w, uopt = none ∧ db.dereference ws = .ok (.ws w) ∧
         unlocked = defaultUnlocked ws w)) := by
  unfold mkContext at h
  cases hder : db.dereference ws with
  | error e => rw [hder] at h; simp [Bind.bind, Except.bind] at h
  | ok node =>
      rw [hder] at h
      cases uopt with
      | some s =>
          simp only [Bind.bind, Except.bind, pure, Except.pure] at h
          cases hnp : namePointers ws (insert ws s) ws db fuel with
          | error e => rw [hnp] at h; simp at h
          | ok names =>
              rw [hnp] at h
              cases hd : ctxToStr ws (insert ws s) names.1 db fuel with
              | error e => simp only [hd] at h; exact Except.noConfusion h
              | ok disp =>
                  simp only [hd, Except.ok.injEq] at h
                  exact ⟨_, _, _, _, h.symm, .inl ⟨s, rfl, rfl⟩⟩
      | none =>
          cases node with
          | raw chunks => simp [Bind.bind, Except.bind] at h
          | ws w =>
              simp only [Bind.bind, Except.bind, pure, Except.pure] at h
              cases hnp : namePointers ws (defaultUnlocked ws w) ws db fuel with
              | error e => rw [hnp] at h; simp at h
              | ok names =>
                  rw [hnp] at h
                  cases hd : ctxToStr ws (defaultUnlocked ws w) names.1 db fuel with
                  | error e => simp only [hd] at h; exact Except.noConfusion h
                  | ok disp =>
                      simp only [hd, Except.ok.injEq] at h
                      exact ⟨_, _, _, _, h.symm, .inr ⟨w, rfl, rfl, rfl⟩⟩

/-! ## Claim C2: context display, equality and hash -/

theorem patchworkEq_refl : ∀ c : Context, patchworkEq c c = true
  | .mk w u pn np d p => by
      cases p with
      | none => simp [patchworkEq]
      | some a => simp [patchworkEq, patchworkEq_refl a]

/-- **C2 (amended).**  The display is computed at construction and is used
as the hash in both implementations and as the equality in the `pure_hch`
implementation: two contexts compare equal there exactly when their
displays agree, and equal displays give equal hashes.  Construction is
deterministic: two contexts built from the same workspace, unlocked set
and parent against the same store are equal, so they have equal displays,
compare equal under both implementations' equality, and hash equally.
(The patchwork implementation's equality compares workspace link, unlocked
set and parent instead of the display, so the unamended claim fails there;
see the counterexample.) -/
theorem claim_C2_display_identity
    (c1 c2 : Context) (ws : Addr) (db : Datastore) (u : Option (Finset ℕ))
    (p : Option Context) (fuel : ℕ)
    (h1 : mkContext ws db u p fuel = .ok c1)
    (h2 : mkContext ws db u p fuel = .ok c2) :
    (∀ d1 d2 : Context, pureHchEq d1 d2 = true ↔ d1.display = d2.display)
    ∧ (∀ d1 d2 : Context, d1.display = d2.display → ctxHash d1 = ctxHash d2)
    ∧ c1 = c2
    ∧ c1.display = c2.display
    ∧ pureHchEq c1 c2 = true
    ∧ patchworkEq c1 c2 = true
    ∧ ctxHash c1 = ctxHash c2 := by
  have hc : c1 = c2 := by
    rw [h1] at h2
    exact (Except.ok.inj h2)
  subst hc
  refine ⟨?_, ?_, rfl, rfl, ?_, patchworkEq_refl c1, rfl⟩
  · intro d1 d2
    simp [pureHchEq]
  · intro d1 d2 h
    simp [ctxHash, h]
  · simp [pureHchEq]

/-- Concrete workspace for the C2 counterexample and witnesses. -/
def wsC2 : WorkspaceData :=
  { question_link := 1, answer_promise := 2, final_workspace_promise := 3,
    scratchpad_link := 4, subquestions := [], predecessor_link := none }

/-- Concrete store for the C2 counterexample and witnesses. -/
def dbC2 : Datastore :=
  { content := [(0, .ws wsC2), (1, .raw [.lit "Q?"]), (4, .raw [])],
    canonical_addresses := [("Q?", 1), ("", 4), (pyStr (.ws wsC2), 0)],
    promises := [(2, []), (3, [])], aliases := [] }

/-- The context over `dbC2`'s workspace `0` with no parent. -/
def ctxC2a : Context :=
  match mkContext 0 dbC2 none none 20 with
  | .ok c => c
  | .error _ => .mk 0 ∅ [] [] "" none

/-- The same context built with `ctxC2a` as parent. -/
def ctxC2b : Context :=
  match mkContext 0 dbC2 none (some ctxC2a) 20 with
  | .ok c => c
  | .error _ => .mk 0 ∅ [] [] "" none

/-- **C2, counterexample.**  The claim says the display is used as the
context's equality, so any two contexts with the same display string
compare equal.  In patchwork/context.py `__eq__` compares
`(workspace_link, unlocked_locations, parent)` instead: the two contexts
below are genuinely constructed over the same store and workspace, have
identical displays, yet compare unequal because their parents differ. -/
theorem claim_C2_counterexample :
    mkContext 0 dbC2 none none 20 = .ok ctxC2a
    ∧ mkContext 0 dbC2 none (some ctxC2a) 20 = .ok ctxC2b
    ∧ ctxC2a.display = ctxC2b.display
    ∧ patchworkEq ctxC2a ctxC2b = false := by
  exact ⟨rfl, rfl, rfl, by decide⟩

/-- Witness for the amended C2 at the concrete store `dbC2`. -/
theorem claim_C2_witness :
    mkContext 0 dbC2 none none 20 = .ok ctxC2a
    ∧ ctxC2a.display = ctxC2a.display
    ∧ pureHchEq ctxC2a ctxC2a = true
    ∧ patchworkEq ctxC2a ctxC2a = true
    ∧ ctxHash ctxC2a = ctxHash ctxC2a := by
  have h := claim_C2_display_identity ctxC2a ctxC2a 0 dbC2 none none 20 rfl rfl
  exact ⟨rfl, h.2.2.2.1, h.2.2.2.2.1, h.2.2.2.2.2.1, h.2.2.2.2.2.2⟩

/-! ## Claims C6 and C9: the unlocked set -/

/-- **C6.**  A context constructed without an explicit unlocked set has as
its unlocked set exactly the workspace address, its question, its
scratchpad, the question address of each subquestion, and the predecessor
if one exists; given the invariant that the workspace's two promises are
distinct from all of those, the promises are not in the default unlocked
set.  (The subquestions' answer/final-workspace promises are not among the
listed addresses at all, so they are likewise excluded by the set
equality.) -/
theorem claim_C6_default_unlocked
    (ws : Addr) (db : Datastore) (w : WorkspaceData) (parent : Option Context)
    (fuel : ℕ) (ctx : Context)
    (hder : db.dereference ws = .ok (.ws w))
    (hmk : mkContext ws db none parent fuel = .ok ctx)
    (ha : w.answer_promise ∉ ([ws, w.question_link, w.scratchpad_link]
        ++ w.subquestions.map (fun t => t.1) ++ w.predecessor_link.toList))
    (hf : w.final_workspace_promise ∉ ([ws, w.question_link, w.scratchpad_link]
        ++ w.subquestions.map (fun t => t.1) ++ w.predecessor_link.toList)) :
    ctx.unlocked_locations =
      ({ws} : Finset ℕ) ∪ {w.question_link} ∪ {w.scratchpad_link}
        ∪ (w.subquestions.map (fun t => t.1)).toFinset
        ∪ w.predecessor_link.toList.toFinset
    ∧ w.answer_promise ∉ ctx.unlocked_locations
    ∧ w.final_workspace_promise ∉ ctx.unlocked_locations := by
  obtain ⟨unlocked, pn, np, d, hctx, hu⟩ :=
    mkContext_ok_inversion ws db none parent fuel ctx hmk
  rcases hu with ⟨s, hs, -⟩ | ⟨w', -, hder', hud⟩
  · exact Option.noConfusion hs
  · rw [hder] at hder'
    have hww : w = w' := by
      have := Except.ok.inj hder'
      exact Node.ws.inj this

    subst hww
    have hunl : ctx.unlocked_locations = defaultUnlocked ws w := by
      rw [hctx, hud]
      rfl
    refine ⟨?_, ?_, ?_⟩
    · rw [hunl]
      ext a
      simp [defaultUnlocked]
    · rw [hunl]
      intro hmem
      rw [defaultUnlocked, List.mem_toFinset] at hmem
      exact ha hmem
    · rw [hunl]
      intro hmem
      rw [defaultUnlocked, List.mem_toFinset] at hmem
      exact hf hmem

/-- Concrete workspace for the C6/C9 witnesses: question `1`, promises
`2`/`3`, scratchpad `4`, no subquestions, no predecessor (stored at `0`
in `dbC2`). -/
theorem claim_C6_witness :
    ctxC2a.unlocked_locations =
      ({0} : Finset ℕ) ∪ {1} ∪ {4} ∪ (∅ : Finset ℕ) ∪ (∅ : Finset ℕ)
    ∧ (2 : ℕ) ∉ ctxC2a.unlocked_locations
    ∧ (3 : ℕ) ∉ ctxC2a.unlocked_locations := by
  have h := claim_C6_default_unlocked 0 dbC2 wsC2 none 20 ctxC2a rfl rfl
    (by decide) (by decide)
  simpa [wsC2] using h

/-- **C9.**  Every context's unlocked set contains its own workspace
address: with an explicit unlocked set the workspace link is added to the
given set (the Python code mutates the caller's set object, whose value
after construction is exactly `insert ws s`), and the default set contains
it.  Consequently the unlocked-region walk over any context's workspace
yields the workspace itself first, so the root workspace is rendered
inline in the display rather than as a bare pointer name. -/
theorem claim_C9_own_workspace_unlocked
    (ws t w' : Addr) (db : Datastore) (s u : Finset ℕ)
    (parent parent' : Option Context) (fuel fuel' f : ℕ) (ctx ctx' : Context)
    (l : List Addr)
    (hexp : mkContext ws db (some s) parent fuel = .ok ctx)
    (hdef : mkContext ws db none parent' fuel' = .ok ctx')
    (hvisit : visit_unlocked_region t w' db (some u) f = .ok l)
    (ht : t ∈ u) :
    ctx.unlocked_locations = insert ws s
    ∧ ws ∈ ctx.unlocked_locations
    ∧ ws ∈ ctx'.unlocked_locations
    ∧ l.head? = some w' := by
  obtain ⟨unlocked, pn, np, d, hctx, hu⟩ :=
    mkContext_ok_inversion ws db (some s) parent fuel ctx hexp
  obtain ⟨unlocked', pn', np', d', hctx', hu'⟩ :=
    mkContext_ok_inversion ws db none parent' fuel' ctx' hdef
  have h1 : ctx.unlocked_locations = insert ws s := by
    rcases hu with ⟨s0, hs0, hus⟩ | ⟨w0, hns, -, -⟩
    · rw [hctx]
      have : s0 = s := by injection hs0 with h; exact h.symm
      subst this
      exact hus
    · exact Option.noConfusion hns
  have h3 : ws ∈ ctx'.unlocked_locations := by
    rcases hu' with ⟨s0, hs0, -⟩ | ⟨w0, -, -, hud⟩
    · exact Option.noConfusion hs0
    · rw [hctx']
      show ws ∈ unlocked'
      rw [hud, defaultUnlocked, List.mem_toFinset]
      simp
  refine ⟨h1, by rw [h1]; exact Finset.mem_insert_self ws s, h3, ?_⟩
  cases f with
  | zero => simp [visit_unlocked_region, visitAux] at hvisit
  | succ f' =>
      simp only [visit_unlocked_region, visitAux] at hvisit
      split at hvisit
      · simp only [Bind.bind, Except.bind] at hvisit
        cases hd1 : db.dereference t with
        | error e => rw [hd1] at hvisit; exact Except.noConfusion hvisit
        | ok p1 =>
            rw [hd1] at hvisit
            cases hd2 : db.dereference w' with
            | error e => simp only [hd2] at hvisit; exact Except.noConfusion hvisit
            | ok p2 =>
                simp only [hd2] at hvisit
                cases hrec : visitAux db (some u) f'
                    (((p1.links.zip p2.links).foldl
                      (fun (p : List (Addr × Addr) × List (Addr × Addr)) nl =>
                        if nl ∈ p.2 then p else (p.1 ++ [nl], p.2 ++ [nl]))
                      ([], [(t, w')])).1)
                    (((p1.links.zip p2.links).foldl
                      (fun (p : List (Addr × Addr) × List (Addr × Addr)) nl =>
                        if nl ∈ p.2 then p else (p.1 ++ [nl], p.2 ++ [nl]))
                      ([], [(t, w')])).2) with
                | error e => simp only [hrec] at hvisit; exact Except.noConfusion hvisit
                | ok tail =>
                    simp only [hrec] at hvisit
                    have := Except.ok.inj hvisit
                    rw [← this]
                    rfl
      · next hcond =>
          exfalso
          apply hcond
          simp [ht]

/-- A context over `dbC2`'s workspace `0` constructed with the explicit
unlocked set `{1}` (to which the constructor adds the workspace link). -/
def ctxC9 : Context :=
  match mkContext 0 dbC2 (some {1}) none 20 with
  | .ok c => c
  | .error _ => .mk 0 ∅ [] [] "" none

/-- Witness for C9 at the concrete store `dbC2`. -/
theorem claim_C9_witness :
    ctxC9.unlocked_locations = insert 0 ({1} : Finset ℕ)
    ∧ (0 : ℕ) ∈ ctxC9.unlocked_locations
    ∧ (0 : ℕ) ∈ ctxC2a.unlocked_locations
    ∧ ([0, 1, 4] : List Addr).head? = some 0 := by
  have hexp : mkContext 0 dbC2 (some {1}) none 20 = .ok ctxC9 := rfl
  have hdef : mkContext 0 dbC2 none none 20 = .ok ctxC2a := rfl
  have hvis : visit_unlocked_region 0 0 dbC2 (some (defaultUnlocked 0 wsC2)) 20
      = .ok [0, 1, 4] := rfl
  exact claim_C9_own_workspace_unlocked 0 0 0 dbC2 {1}
    (defaultUnlocked 0 wsC2) none none 20 20 20 ctxC9 ctxC2a [0, 1, 4]
    hexp hdef hvis (by decide)

/-! ## Claim C4: the `resolve_action` work queue -/

/-- `deque.extendleft(items)`: appends each item on the left in turn, so
the block ends up reversed. -/
def dequeExtendleft {α : Type} (q : List α) (items : List α) : List α :=
  items.foldl (fun acc x => x :: acc) q

/-- The work queue built in `Scheduler.resolve_action`
(patchwork/scheduling.py lines 160-161):
`deque(self.pending_contexts)` followed by
`extendleft(other_contexts)`. -/
def buildQueue {α : Type} (pending other_contexts : List α) : List α :=
  dequeExtendleft pending other_contexts

/-- The automation drain loop of `Scheduler.resolve_action`
(patchwork/scheduling.py lines 163-179).  The automator search plus
`automatic_action.execute` is abstracted as `auto` (returning the
successor, the new contexts and the updated transaction state, or `none`
if no automator can handle the context), and `is_own_ancestor` against the
transaction as `cyc`.  The loop pops from the left; a handled context's
new contexts (successor last) are appended at the back after the cycle
check; an unhandled context goes to the holding list. -/
def drainLoop {α σ : Type} (auto : σ → α → Option ((Option α × List α) × σ))
    (cyc : σ → α → Bool) :
    ℕ → σ → List α → List α → Except String (List α × σ)
  | 0, _, _, _ => .error "fuel"
  | _ + 1, s, [], holding => .ok (holding, s)
  | fuel + 1, s, c :: rest, holding =>
      match auto s c with
      | none => drainLoop auto cyc fuel s rest (holding ++ [c])
      | some ((succ, more), s') =>
          let newContexts := more ++ succ.toList
          if newContexts.any (cyc s') then .error "Action resulted in an infinite loop"
          else drainLoop auto cyc fuel s' (rest ++ newContexts) holding

theorem dequeExtendleft_eq_reverse_append {α : Type} (items q : List α) :
    dequeExtendleft q items = items.reverse ++ q := by
  induction items generalizing q with
  | nil => simp [dequeExtendleft]
  | cons a l ih =>
      simp only [dequeExtendleft, List.foldl_cons] at *
      rw [ih (a :: q)]
      simp

/-- **C4 (amended).**  The work queue built by `resolve_action` is the
*reversed* spawned contexts followed by the prior pending contexts
(`deque.extendleft` reverses its argument), and the queue is drained in
FIFO order: each step pops the front context, appends the contexts it
produces (successor last) at the back if an automator handled it, or moves
it to the holding list; with no automation the queue drains in order. -/
theorem claim_C4_queue_order
    {α σ : Type} (pending spawned : List α)
    (auto : σ → α → Option ((Option α × List α) × σ)) (cyc : σ → α → Bool)
    (fuel : ℕ) (s s' : σ) (c : α) (succ : Option α) (more rest holding : List α)
    (hnone : auto s c = none)
    (hsome : ∀ s₀ c₀, auto s₀ c₀ = none) :
    buildQueue pending spawned = spawned.reverse ++ pending
    ∧ drainLoop auto cyc (fuel + 1) s (c :: rest) holding
        = drainLoop auto cyc fuel s rest (holding ++ [c])
    ∧ (∀ (auto₂ : σ → α → Option ((Option α × List α) × σ)),
        auto₂ s c = some ((succ, more), s') →
        (more ++ succ.toList).any (cyc s') = false →
        drainLoop auto₂ cyc (fuel + 1) s (c :: rest) holding
          = drainLoop auto₂ cyc fuel s' (rest ++ (more ++ succ.toList)) holding)
    ∧ (∀ (queue hold : List α) (f : ℕ), queue.length < f →
        drainLoop auto cyc f s queue hold = .ok (hold ++ queue, s)) := by
  refine ⟨dequeExtendleft_eq_reverse_append spawned pending, ?_, ?_, ?_⟩
  · simp only [drainLoop, hnone]
  · intro auto₂ h2 hcyc
    simp only [drainLoop, h2, hcyc]
    rfl
  · intro queue hold f hlt
    induction f generalizing queue hold with
    | zero => exact absurd hlt (Nat.not_lt_zero _)
    | succ f ih =>
        cases queue with
        | nil => simp [drainLoop]
        | cons c₀ rest₀ =>
            simp only [drainLoop, hsome s c₀]
            rw [ih rest₀ (hold ++ [c₀])
              (Nat.lt_of_succ_lt_succ (by simpa using hlt))]
            simp

/-- **C4, counterexample.**  The claim states the queue is exactly the
spawned contexts in the order the action returned them followed by the
prior pending contexts; `deque.extendleft` reverses the spawned block
instead: with spawned `[0, 1]` and pending `[2]` the queue is `[1, 0, 2]`,
not `[0, 1, 2]`. -/
theorem claim_C4_counterexample :
    buildQueue ([2] : List ℕ) [0, 1] = [1, 0, 2]
    ∧ buildQueue ([2] : List ℕ) [0, 1] ≠ [0, 1] ++ [2] := by
  exact ⟨rfl, by decide⟩

/-- A concrete automator for the C4 witness: handles context `0` by
producing successor `7` and spawned `[5]`, bumping the state. -/
def autoC4 (s c : ℕ) : Option ((Option ℕ × List ℕ) × ℕ) :=
  if c = 0 then some ((some 7, [5]), s + 1) else none

/-- The always-unhandled automator for the C4 witness. -/
def autoC4none (_ _ : ℕ) : Option ((Option ℕ × List ℕ) × ℕ) := none

/-- Witness for the amended C4 with concrete queues and automators. -/
theorem claim_C4_witness :
    buildQueue ([2] : List ℕ) [0, 1] = [1, 0, 2]
    ∧ drainLoop autoC4none (fun _ _ => false) 3 0 [0] []
        = drainLoop autoC4none (fun _ _ => false) 2 0 [] [0]
    ∧ drainLoop autoC4 (fun _ _ => false) 3 0 [0] []
        = drainLoop autoC4 (fun _ _ => false) 2 1 [5, 7] []
    ∧ drainLoop autoC4none (fun _ _ => false) 3 0 [8, 9] [] = .ok ([8, 9], 0) := by
  have h := claim_C4_queue_order ([2] : List ℕ) [0, 1] autoC4none
    (fun _ _ => false) 2 0 1 0 (some 7) [5] [] [] rfl (fun _ _ => rfl)
  refine ⟨h.1, ?_, ?_, ?_⟩
  · simpa using h.2.1
  · have h3 := h.2.2.1 autoC4 rfl rfl
    simpa using h3
  · have h4 := h.2.2.2 [8, 9] [] 3 (by decide)
    simpa using h4

/-! ## Claim C8: the Unlock action's error paths -/

/-- `Context.unlocked_locations_from_workspace` (patchwork/context.py lines
81-87): the set of addresses in the unlocked region of a (re-seated)
workspace. -/
def unlocked_locations_from_workspace (ctx : Context) (workspace_link : Addr)
    (db : Datastore) (fuel : ℕ) : Except PyErr (Finset ℕ) := do
  let l ← visit_unlocked_region ctx.workspace_link workspace_link db
    (some ctx.unlocked_locations) fuel
  pure l.toFinset

/-- `Context.name_pointers_for_workspace` (patchwork/context.py lines
89-94): the name-to-address map of the naming. -/
def name_pointers_for_workspace (ctx : Context) (workspace_link : Addr)
    (db : Datastore) (fuel : ℕ) : Except PyErr (List (String × Addr)) := do
  let r ← namePointers ctx.workspace_link ctx.unlocked_locations workspace_link db fuel
  pure r.2

/-- Modelled from the spec: `Context.from_dry` is referenced by
patchwork/actions.py but its definition is not in the provided sources.
Per the spec (§4.3, glossary), a dry context is the minimal triple
`(workspace_addr, unlocked_set, parent)` the store needs to later
materialize a full context, so hydration constructs
`Context(workspace_link, db, unlocked_locations, parent)`. -/
def Context.from_dry (dry : DryContext) (db : Datastore) (fuel : ℕ) :
    Except PyErr Context :=
  mkContext dry.workspace_link db (some dry.unlocked_locations) dry.parent fuel

/-- `Unlock.execute` (patchwork/actions.py lines 173-202).  A `KeyError`
raised while resolving the name (including from the naming computation
itself, which is inside the `try`) becomes the "not visible" `ValueError`;
unlocking an address already in the unlocked region raises the "already
unlocked" `ValueError`; otherwise the address is unlocked, producing a
spawned context if fulfilled and registering a dry context as promisee if
pending. -/
def Unlock.execute (unlock_text : String) (db : Datastore) (context : Context)
    (fuel : ℕ) : Except PyErr (Option Context × List Context) × Datastore :=
  match name_pointers_for_workspace context context.workspace_link db fuel with
  | .error .keyError =>
      (.error (.valueError (unlock_text ++ " is not visible in this context")), db)
  | .error e => (.error e, db)
  | .ok names =>
      match dictLookup names unlock_text with
      | none =>
          (.error (.valueError (unlock_text ++ " is not visible in this context")), db)
      | some pointer_address =>
          match unlocked_locations_from_workspace context context.workspace_link db fuel with
          | .error e => (.error e, db)
          | .ok region =>
              if pointer_address ∈ region then
                (.error (.valueError (unlock_text ++ " is already unlocked.")), db)
              else
                let new_unlocked := insert pointer_address region
                let dry : DryContext :=
                  ⟨context.workspace_link, new_unlocked, some context⟩
                match db.is_fulfilled pointer_address with
                | .error e => (.error e, db)
                | .ok true =>
                    match Context.from_dry dry db fuel with
                    | .error e => (.error e, db)
                    | .ok c => (.ok (none, [c]), db)
                | .ok false =>
                    match db.register_promisee pointer_address dry with
                    | (.ok _, db') => (.ok (none, []), db')
                    | (.error e, db') => (.error e, db')

/-- **C8.**  `Unlock(name)` raises a recoverable `ValueError` when the name
is not in the context's pointer naming, and when the named address is
already in the context's unlocked region; in both cases the store is
returned unchanged (nothing inserted, no promise made, no promisee
registered). -/
theorem claim_C8_unlock_error_paths
    (unlock_text : String) (db : Datastore) (ctx : Context) (fuel : ℕ)
    (names : List (String × Addr))
    (hnames : name_pointers_for_workspace ctx ctx.workspace_link db fuel = .ok names) :
    (dictLookup names unlock_text = none →
      Unlock.execute unlock_text db ctx fuel
        = (.error (.valueError (unlock_text ++ " is not visible in this context")), db))
    ∧ (∀ a region, dictLookup names unlock_text = some a →
        unlocked_locations_from_workspace ctx ctx.workspace_link db fuel = .ok region →
        a ∈ region →
        Unlock.execute unlock_text db ctx fuel
          = (.error (.valueError (unlock_text ++ " is already unlocked.")), db)) := by
  constructor
  · intro hnone
    rw [Unlock.execute, hnames]
    simp only [hnone]
  · intro a region hsome hreg hmem
    rw [Unlock.execute, hnames]
    simp only [hsome, hreg]
    rw [if_pos hmem]

/-- Witness for C8: unlocking the unknown name `$9` and the already
unlocked name `$1` in the concrete context `ctxC2a` over `dbC2`. -/
theorem claim_C8_witness :
    Unlock.execute "$9" dbC2 ctxC2a 20
      = (.error (.valueError "$9 is not visible in this context"), dbC2)
    ∧ Unlock.execute "$1" dbC2 ctxC2a 20
      = (.error (.valueError "$1 is already unlocked."), dbC2) := by
  have hnames : name_pointers_for_workspace ctxC2a ctxC2a.workspace_link dbC2 20
      = .ok [("$1", 1), ("$2", 4)] := rfl
  have h9 := claim_C8_unlock_error_paths "$9" dbC2 ctxC2a 20 [("$1", 1), ("$2", 4)] hnames
  have h1 := claim_C8_unlock_error_paths "$1" dbC2 ctxC2a 20 [("$1", 1), ("$2", 4)] hnames
  refine ⟨h9.1 rfl, h1.2 1 (([0, 1, 4] : List ℕ).toFinset) rfl rfl (by decide)⟩

/-! ## Claim C10: asking an observationally identical subquestion twice -/

/-- A parse piece produced by the external `parsy` grammar
(pure_hch/text_manipulation.py lines 9-22): nested bracketed hypertext is a
list of pieces, everything else a token string.  The parser itself is an
external collaborator (spec §1); the store-facing functions below consume
its output. -/
inductive Piece where
  | node (children : List Piece) : Piece
  | tok (s : String) : Piece
deriving Repr

/-- Full-match test for the link regex `\$([awq]?[1-9][0-9]*)`
(pure_hch/text_manipulation.py line 9); `link.parse(piece)` succeeds
exactly on full matches. -/
def isLinkName (s : String) : Bool :=
  match s.data with
  | '$' :: rest =>
      let digits :=
        match rest with
        | c :: rest' => if c = 'a' || c = 'w' || c = 'q' then rest' else rest
        | [] => []
      match digits with
      | [] => false
      | d :: ds =>
          (('1' ≤ d && d ≤ '9') && ds.all (fun c => '0' ≤ c && c ≤ '9'))
  | _ => false

/-- `recursively_create_hypertext` (pure_hch/text_manipulation.py lines
28-44): builds the fragment list; a nested piece list is created and
inserted (the body of `recursively_insert_hypertext`, with which it is
mutually recursive, is inlined in the `node` case); a token that fully
matches the link regex is looked up in the pointer map (`KeyError` if
absent), any other token is a literal.  The fuel bounds the recursion
depth (the Python recursion is bounded by the nesting of the parse). -/
def recursively_create_hypertext :
    ℕ → List Piece → Datastore → ℕ → List (String × Addr) →
    Except PyErr (List Frag × Datastore × ℕ)
  | 0, _, _, _, _ => .error .fuel
  | _ + 1, [], db, fresh, _ => .ok ([], db, fresh)
  | pf + 1, .node ps :: rest, db, fresh, map =>
      match recursively_create_hypertext pf ps db fresh map with
      | .error e => .error e
      | .ok (frags0, db0, f0) =>
          match Datastore.insert db0 (.raw frags0) f0 with
          | (.error e, _, _) => .error e
          | (.ok a, db1, f1) =>
              match recursively_create_hypertext pf rest db1 f1 map with
              | .error e => .error e
              | .ok (frags, db2, f2) => .ok (.addr a :: frags, db2, f2)
  | pf + 1, .tok s :: rest, db, fresh, map =>
      if isLinkName s then
        match dictLookup map s with
        | none => .error .keyError
        | some a =>
            match recursively_create_hypertext pf rest db fresh map with
            | .error e => .error e
            | .ok (frags, db2, f2) => .ok (.addr a :: frags, db2, f2)
      else
        match recursively_create_hypertext pf rest db fresh map with
        | .error e => .error e
        | .ok (frags, db2, f2) => .ok (.lit s :: frags, db2, f2)

/-- `recursively_insert_hypertext` (pure_hch/text_manipulation.py lines
47-53): create the raw node and insert it.  `insert_raw_hypertext` is this
applied to the external parser's output. -/
def recursively_insert_hypertext (pfuel : ℕ) (pieces : List Piece)
    (db : Datastore) (fresh : ℕ) (map : List (String × Addr)) :
    Except PyErr (Addr × Datastore × ℕ) :=
  match recursively_create_hypertext pfuel pieces db fresh map with
  | .error e => .error e
  | .ok (frags, db1, f1) =>
      match Datastore.insert db1 (.raw frags) f1 with
      | (.ok a, db2, f2) => .ok (a, db2, f2)
      | (.error e, _, _) => .error e

/-- `AskSubquestion.execute` (patchwork/actions.py lines 73-128) over the
base datastore, with the question text pre-parsed into pieces (the parser
is external).  Note line 102: the sub-workspace is re-dereferenced after
insertion "in case our copy was actually clobbered", and the subquestion
triple is built from the promises of the dereferenced node. -/
def AskSubquestion.execute (question_pieces : List Piece) (db : Datastore)
    (fresh : ℕ) (context : Context) (fuel : ℕ) :
    Except PyErr ((Option Context × List Context) × Datastore × ℕ) := do
  let names ← name_pointers_for_workspace context context.workspace_link db fuel
  let r1 ← recursively_insert_hypertext fuel question_pieces db fresh names
  let subquestion_link := r1.1
  let (answer_link, db2, f2) := r1.2.1.make_promise r1.2.2
  let (final_sub_workspace_link, db3, f3) := db2.make_promise f2
  let r2 ← recursively_insert_hypertext fuel [] db3 f3 []
  let scratchpad_link := r2.1
  let db4 := r2.2.1
  let f4 := r2.2.2
  let sub_workspace : WorkspaceData :=
    { question_link := subquestion_link, answer_promise := answer_link,
      final_workspace_promise := final_sub_workspace_link,
      scratchpad_link := scratchpad_link, subquestions := [],
      predecessor_link := none }
  let currentNode ← db4.dereference context.workspace_link
  match currentNode with
  | .raw _ => throw (.attributeError "subquestions")
  | .ws current_workspace =>
      match Datastore.insert db4 (.ws sub_workspace) f4 with
      | (.error e, _, _) => throw e
      | (.ok sub_workspace_link, db5, f5) => do
          let subNode ← db5.dereference sub_workspace_link
          match subNode with
          | .raw _ => throw (.attributeError "answer_promise")
          | .ws subWs => do
              let new_subquestions := current_workspace.subquestions ++
                [(subquestion_link, subWs.answer_promise, subWs.final_workspace_promise)]
              let successor_workspace : WorkspaceData :=
                { question_link := current_workspace.question_link,
                  answer_promise := current_workspace.answer_promise,
                  final_workspace_promise := current_workspace.final_workspace_promise,
                  scratchpad_link := current_workspace.scratchpad_link,
                  subquestions := new_subquestions, predecessor_link := none }
              match Datastore.insert db5 (.ws successor_workspace) f5 with
              | (.error e, _, _) => throw e
              | (.ok successor_workspace_link, db6, f6) => do
                  let region ← unlocked_locations_from_workspace context
                    context.workspace_link db6 fuel
                  if context.workspace_link ∉ region then throw .keyError
                  else do
                    let new_unlocked := insert successor_workspace_link
                      (insert subquestion_link (region.erase context.workspace_link))
                    let succCtx ← mkContext successor_workspace_link db6
                      (some new_unlocked) (some context) fuel
                    let spawned ← mkContext sub_workspace_link db6 none
                      (some context) fuel
                    pure ((some succCtx, [spawned]), db6, f6)

theorem dictErase_dictSet {K V : Type} [DecidableEq K]
    (m : List (K × V)) (k : K) (v : V) (h : dictLookup m k = none) :
    dictErase (dictSet m k v) k = m := by
  induction m with
  | nil => simp [dictSet, dictErase]
  | cons kv rest ih =>
      simp only [dictLookup] at h
      by_cases hk : kv.1 = k
      · rw [if_pos hk] at h
        exact Option.noConfusion h
      · rw [if_neg hk] at h
        obtain ⟨a, b⟩ := kv
        simp only [dictSet, dictErase]
        simp only at hk
        rw [if_neg hk, dictErase, if_neg hk, ih h]

/-- `insert` on a canonical hit returns the existing address and leaves the
store and the allocator untouched. -/
theorem insert_hit (d : Datastore) (c : Node) (f : ℕ) (a : Addr)
    (h : dictLookup d.canonical_addresses (pyStr c) = some a) :
    Datastore.insert d c f = (.ok a, d, f) := by
  simp [Datastore.insert, h]

/-- A successful `insert` at a fresh address leaves the promises map
unchanged (the temporary promise made for the new content is resolved and
deleted again within the call). -/
theorem insert_ok_promises (d : Datastore) (c : Node) (f : ℕ) (a : Addr)
    (d' : Datastore) (f' : ℕ)
    (h : Datastore.insert d c f = (.ok a, d', f'))
    (hp : dictLookup d.promises f = none) : d'.promises = d.promises := by
  unfold Datastore.insert at h
  cases hc : dictLookup d.canonical_addresses (pyStr c) with
  | some a0 =>
      rw [hc] at h
      have hd : d = d' := congrArg (fun t => t.2.1) h
      rw [← hd]
  | none =>
      rw [hc] at h
      simp only [Datastore.make_promise, Datastore.resolve_promise,
        dictLookup_dictSet_self, hc] at h
      have hd := congrArg (fun t => t.2.1) h
      simp only at hd
      rw [← hd]
      exact dictErase_dictSet d.promises f [] hp

/-- **C10.**  When `AskSubquestion` builds a sub-workspace whose canonical
rendering is already present in the store (canonical at `A0`, holding
`W0`), `db.insert` returns the pre-existing address `A0` without changing
the store, the spawned context is over `A0`, the subquestion triple
appended to the parent workspace carries `W0`'s `answer_promise` and
`final_workspace_promise` (see `successor_workspace` in `hsuccins` and the
resulting `execute` equation), and the two promises freshly allocated by
the action (`f1` and `f1 + 1`) remain pending with empty promisee lists in
the final store — discarded unresolved.  The freshness hypotheses `hp*`
model uuid uniqueness of allocated addresses. -/
theorem claim_C10_duplicate_subquestion_shares_promises
    (qp : List Piece) (db : Datastore) (fresh : ℕ) (ctx : Context) (fuel : ℕ)
    (names : List (String × Addr)) (qlink : Addr) (db1 : Datastore) (f1 : ℕ)
    (slink : Addr) (db4 : Datastore) (f4 : ℕ) (cur : WorkspaceData)
    (A0 : Addr) (W0 : WorkspaceData) (succLink : Addr) (db6 : Datastore)
    (f6 : ℕ) (region : Finset ℕ) (sc spc : Context)
    (hnames : name_pointers_for_workspace ctx ctx.workspace_link db fuel = .ok names)
    (hq : recursively_insert_hypertext fuel qp db fresh names = .ok (qlink, db1, f1))
    (hscr : recursively_insert_hypertext fuel [] { db1 with
        promises := dictSet (dictSet db1.promises f1 []) (f1 + 1) [] } (f1 + 2) []
      = .ok (slink, db4, f4))
    (hcur : db4.dereference ctx.workspace_link = .ok (.ws cur))
    (hsub : dictLookup db4.canonical_addresses
        (pyStr (.ws (WorkspaceData.mk qlink f1 (f1 + 1) slink [] none))) = some A0)
    (hA0 : db4.dereference A0 = .ok (.ws W0))
    (hsuccins : Datastore.insert db4 (.ws (WorkspaceData.mk cur.question_link
        cur.answer_promise cur.final_workspace_promise cur.scratchpad_link
        (cur.subquestions ++ [(qlink, W0.answer_promise, W0.final_workspace_promise)])
        none)) f4 = (.ok succLink, db6, f6))
    (hreg : unlocked_locations_from_workspace ctx ctx.workspace_link db6 fuel
      = .ok region)
    (hmem : ctx.workspace_link ∈ region)
    (hmk1 : mkContext succLink db6
        (some (insert succLink (insert qlink (region.erase ctx.workspace_link))))
        (some ctx) fuel = .ok sc)
    (hmk2 : mkContext A0 db6 none (some ctx) fuel = .ok spc)
    (hp3 : dictLookup db1.promises (f1 + 2) = none)
    (hp4 : dictLookup db4.promises f4 = none) :
    AskSubquestion.execute qp db fresh ctx fuel = .ok ((some sc, [spc]), db6, f6)
    ∧ Datastore.insert db4 (.ws (WorkspaceData.mk qlink f1 (f1 + 1) slink [] none))
        f4 = (.ok A0, db4, f4)
    ∧ spc.workspace_link = A0
    ∧ sc.workspace_link = succLink
    ∧ dictLookup db6.promises f1 = some []
    ∧ dictLookup db6.promises (f1 + 1) = some [] := by
  have hsubins := insert_hit db4
    (.ws (WorkspaceData.mk qlink f1 (f1 + 1) slink [] none)) f4 A0 hsub
  -- invert the scratchpad insertion to an `insert` equation
  have hins : Datastore.insert { db1 with
      promises := dictSet (dictSet db1.promises f1 []) (f1 + 1) [] } (.raw [])
      (f1 + 2) = (.ok slink, db4, f4) := by
    cases fuel with
    | zero => simp [recursively_insert_hypertext, recursively_create_hypertext] at hscr
    | succ pf =>
    simp only [recursively_insert_hypertext, recursively_create_hypertext] at hscr
    rcases hi : Datastore.insert { db1 with
        promises := dictSet (dictSet db1.promises f1 []) (f1 + 1) [] } (.raw [])
        (f1 + 2) with ⟨r, dx, fx⟩
    rw [hi] at hscr
    cases r with
    | error e => exact Except.noConfusion hscr
    | ok a =>
        have h3 := Except.ok.inj hscr
        have ha : a = slink := congrArg (fun t => t.1) h3
        have hdx : dx = db4 := congrArg (fun t => t.2.1) h3
        have hfx : fx = f4 := congrArg (fun t => t.2.2) h3
        rw [ha, hdx, hfx]
  have hprom4 : db4.promises = dictSet (dictSet db1.promises f1 []) (f1 + 1) [] := by
    have hfresh : dictLookup (dictSet (dictSet db1.promises f1 []) (f1 + 1) [])
        (f1 + 2) = none := by
      rw [dictLookup_dictSet_ne _ (f1 + 1) (f1 + 2) _ (by omega),
        dictLookup_dictSet_ne _ f1 (f1 + 2) _ (by omega)]
      exact hp3
    have h := insert_ok_promises _ _ _ _ _ _ hins hfresh
    simpa using h
  have hprom6 : db6.promises = db4.promises :=
    insert_ok_promises _ _ _ _ _ _ hsuccins hp4
  have hl1 : dictLookup db6.promises f1 = some [] := by
    rw [hprom6, hprom4, dictLookup_dictSet_ne _ (f1 + 1) f1 _ (by omega),
      dictLookup_dictSet_self]
  have hl2 : dictLookup db6.promises (f1 + 1) = some [] := by
    rw [hprom6, hprom4, dictLookup_dictSet_self]
  obtain ⟨u2, pn2, np2, d2, hspc, -⟩ :=
    mkContext_ok_inversion A0 db6 none (some ctx) fuel spc hmk2
  obtain ⟨u1, pn1, np1, d1, hsc, -⟩ :=
    mkContext_ok_inversion succLink db6
      (some (insert succLink (insert qlink (region.erase ctx.workspace_link))))
      (some ctx) fuel sc hmk1
  refine ⟨?_, hsubins, by rw [hspc]; rfl, by rw [hsc]; rfl, hl1, hl2⟩
  unfold AskSubquestion.execute
  simp only [Bind.bind, Except.bind, hnames, hq, Datastore.make_promise, hscr,
    hcur, hsubins, hA0, hsuccins, hreg, hmk1, hmk2, hmem, not_true_eq_false,
    if_false, pure, Except.pure]

/-- Pre-existing sub-workspace for the C10 witness: question `30`,
promises `41`/`42`, empty scratchpad `11`. -/
def w0C10 : WorkspaceData := WorkspaceData.mk 30 41 42 11 [] none

/-- Parent workspace for the C10 witness: already has the subquestion
triple `(30, 41, 42)` for the pre-existing sub-workspace. -/
def parC10 : WorkspaceData := WorkspaceData.mk 10 20 21 11 [(30, 41, 42)] none

/-- Concrete store for the C10 witness: the same question `"Sub?"` has been
asked before, so the sub-workspace rendering is already canonical at `40`. -/
def dbC10 : Datastore :=
  { content := [(10, .raw [.lit "Root?"]), (11, .raw []), (30, .raw [.lit "Sub?"]),
      (40, .ws w0C10), (50, .ws parC10)],
    canonical_addresses := [("Root?", 10), ("", 11), ("Sub?", 30),
      (pyStr (.ws w0C10), 40), (pyStr (.ws parC10), 50)],
    promises := [(20, []), (21, []), (41, []), (42, [])],
    aliases := [] }

/-- The acting context over the parent workspace `50`. -/
def ctxC10 : Context :=
  match mkContext 50 dbC10 none none 30 with
  | .ok c => c
  | .error _ => .mk 0 ∅ [] [] "" none

/-- `dbC10` after the two fresh promises `100`/`101` are allocated. -/
def dbC10b : Datastore :=
  { dbC10 with promises := dictSet (dictSet dbC10.promises 100 []) 101 [] }

/-- The store after inserting the successor workspace (which carries the
duplicated triple `(30, 41, 42)` twice). -/
def dbC10c : Datastore :=
  (Datastore.insert dbC10b
    (.ws (WorkspaceData.mk 10 20 21 11 [(30, 41, 42), (30, 41, 42)] none)) 102).2.1

/-- The successor context produced by the C10 witness execution. -/
def scC10 : Context :=
  match mkContext 102 dbC10c
      (some (insert 102 (insert 30 ((([50, 10, 11, 30] : List ℕ).toFinset).erase 50))))
      (some ctxC10) 30 with
  | .ok c => c
  | .error _ => .mk 0 ∅ [] [] "" none

/-- The spawned context over the pre-existing sub-workspace `40`. -/
def spcC10 : Context :=
  match mkContext 40 dbC10c none (some ctxC10) 30 with
  | .ok c => c
  | .error _ => .mk 0 ∅ [] [] "" none

/-- Witness for C10: asking `"Sub?"` again.  `insert` returns the
pre-existing address `40`, the spawned context is over `40`, and the fresh
promises `100`/`101` stay pending and unused in the final store. -/
theorem claim_C10_witness :
    AskSubquestion.execute [.tok "Sub?"] dbC10 100 ctxC10 30
      = .ok ((some scC10, [spcC10]), dbC10c, 103)
    ∧ Datastore.insert dbC10b (.ws (WorkspaceData.mk 30 100 101 11 [] none)) 102
      = (.ok 40, dbC10b, 102)
    ∧ spcC10.workspace_link = 40
    ∧ dictLookup dbC10c.promises 100 = some []
    ∧ dictLookup dbC10c.promises 101 = some [] := by
  have hnames : name_pointers_for_workspace ctxC10 ctxC10.workspace_link dbC10 30
      = .ok ctxC10.name_pointers := rfl
  have hq : recursively_insert_hypertext 30 [.tok "Sub?"] dbC10 100 ctxC10.name_pointers
      = .ok (30, dbC10, 100) := rfl
  have hscr : recursively_insert_hypertext 30 [] { dbC10 with
      promises := dictSet (dictSet dbC10.promises 100 []) (100 + 1) [] } (100 + 2) []
      = .ok (11, dbC10b, 102) := rfl
  have hcur : dbC10b.dereference ctxC10.workspace_link = .ok (.ws parC10) := rfl
  have hsub : dictLookup dbC10b.canonical_addresses
      (pyStr (.ws (WorkspaceData.mk 30 100 (100 + 1) 11 [] none))) = some 40 := rfl
  have hA0 : dbC10b.dereference 40 = .ok (.ws w0C10) := rfl
  have hsuccins : Datastore.insert dbC10b (.ws (WorkspaceData.mk parC10.question_link
      parC10.answer_promise parC10.final_workspace_promise parC10.scratchpad_link
      (parC10.subquestions ++ [(30, w0C10.answer_promise, w0C10.final_workspace_promise)])
      none)) 102 = (.ok 102, dbC10c, 103) := rfl
  have hreg : unlocked_locations_from_workspace ctxC10 ctxC10.workspace_link dbC10c 30
      = .ok (([50, 10, 11, 30] : List ℕ).toFinset) := rfl
  have hmk1 : mkContext 102 dbC10c
      (some (insert 102 (insert 30
        (((([50, 10, 11, 30] : List ℕ).toFinset)).erase ctxC10.workspace_link))))
      (some ctxC10) 30 = .ok scC10 := rfl
  have hmk2 : mkContext 40 dbC10c none (some ctxC10) 30 = .ok spcC10 := rfl
  have hp3 : dictLookup dbC10.promises (100 + 2) = none := rfl
  have hp4 : dictLookup dbC10b.promises 102 = none := rfl
  have h := claim_C10_duplicate_subquestion_shares_promises
    [.tok "Sub?"] dbC10 100 ctxC10 30 ctxC10.name_pointers 30 dbC10 100 11 dbC10b 102
    parC10 40 w0C10 102 dbC10c 103 (([50, 10, 11, 30] : List ℕ).toFinset) scC10 spcC10
    hnames hq hscr hcur hsub hA0 hsuccins hreg (by decide) hmk1 hmk2 hp3 hp4
  exact ⟨h.1, h.2.1, h.2.2.1, h.2.2.2.2.1, h.2.2.2.2.2⟩

end Patchwork
